import Mathlib

/-!
Shallow embedding of the eufy-checker CLI (src/cli.ts) and verification of
its specification claims.  JS strings are modelled as Lean strings, JS
numbers appearing here (HTTP status, quantity) as natural numbers, and the
falsy empty string or an absent field as the empty string.  Chalk is
modelled at color level 3 (ANSI sequences emitted); at level 0 it is the
identity and every claim below is insensitive to that choice.
-/

set_option maxRecDepth 4096

namespace Eufy

/-- The ECMAScript white-space set used by String.prototype.trim and by the
regular-expression class backslash-s: tab through carriage return, space,
NBSP, and the Unicode space separators. -/
def isJsWs (c : Char) : Bool :=
  let n := c.toNat
  (9 ≤ n && n ≤ 13) || n = 32 || n = 160 || n = 0x1680 ||
  (0x2000 ≤ n && n ≤ 0x200A) || n = 0x2028 || n = 0x2029 ||
  n = 0x202F || n = 0x205F || n = 0x3000 || n = 0xFEFF

/-- JS String.prototype.trim on the character list of a string: drop the
white space from the front, then from the back. -/
def trimJs (l : List Char) : List Char :=
  ((l.dropWhile isJsWs).reverse.dropWhile isJsWs).reverse

/-- JS String.prototype.trim. -/
def trimJsS (s : String) : String :=
  String.mk (trimJs s.data)

/-- JS String.prototype.toLowerCase, restricted to the ASCII range, which is
the alphabet of every comparison in the program.  Core Char.toLower is
exactly the ASCII case map. -/
def jsToLowerS (s : String) : String :=
  String.mk (s.data.map Char.toLower)

/-- JS String.prototype.toUpperCase, restricted to the ASCII range. -/
def jsToUpperS (s : String) : String :=
  String.mk (s.data.map Char.toUpper)

/-- JS Array.prototype.join with a separator. -/
def joinSep (sep : String) : List String → String
  | [] => ""
  | [x] => x
  | x :: y :: xs => x ++ sep ++ joinSep sep (y :: xs)

/-- One order line item of the tracking response (type OrderItem in
src/cli.ts).  An absent or empty field is the empty string, matching how
the CLI only ever tests these fields for JS falsiness. -/
structure OrderItem where
  status : String
  product_name : String
  sku_number : String
  quantity : Nat
  tracking_number : String
  carrier : String
  local_delivery_time : String
  change_deliver_time : String
deriving DecidableEq, Repr

/-- The parsed JSON response (type OrderResponse in src/cli.ts). -/
structure OrderResponse where
  success : Bool
  code : String
  message : String
  data : List OrderItem
deriving DecidableEq, Repr

/-- An order item with every field blank, used to build concrete test
items. -/
def blankItem : OrderItem :=
  ⟨"", "", "", 0, "", "", "", ""⟩

/-- Chalk red at color level 3. -/
def chalkRed (s : String) : String := "\x1b[31m" ++ s ++ "\x1b[39m"

/-- Chalk green at color level 3. -/
def chalkGreen (s : String) : String := "\x1b[32m" ++ s ++ "\x1b[39m"

/-- Chalk yellow at color level 3. -/
def chalkYellow (s : String) : String := "\x1b[33m" ++ s ++ "\x1b[39m"

/-- Chalk blue at color level 3. -/
def chalkBlue (s : String) : String := "\x1b[34m" ++ s ++ "\x1b[39m"

/-- Chalk bold at color level 3. -/
def chalkBold (s : String) : String := "\x1b[1m" ++ s ++ "\x1b[22m"

/-- normalizeStatus from src/cli.ts line 66: status.trim().toLowerCase(). -/
def normalizeStatus (status : String) : String :=
  jsToLowerS (trimJsS status)

/-- The three display classes a status string can be rendered with: the
green, yellow and blue branches of statusColor. -/
inductive StatusClass where
  | shipped
  | pending
  | other
deriving DecidableEq, Repr

/-- The branch of statusColor (src/cli.ts lines 68 to 77) selected for a
status string. -/
def statusClassOf (status : String) : StatusClass :=
  let normalized := normalizeStatus status
  if normalized = "shipped" then .shipped
  else if normalized = "not ship" ∨ normalized = "waiting" then .pending
  else .other

/-- statusColor from src/cli.ts lines 68 to 77. -/
def statusColor (status : String) : String :=
  let normalized := normalizeStatus status
  if normalized = "shipped" then chalkGreen status
  else if normalized = "not ship" ∨ normalized = "waiting" then chalkYellow status
  else chalkBlue status

/-- formatTracking from src/cli.ts lines 79 to 86. -/
def formatTracking (item : OrderItem) : String :=
  if item.tracking_number = "" then "-"
  else if item.carrier ≠ "" then item.carrier ++ " " ++ item.tracking_number
  else item.tracking_number

/-- Worker of collapseWs: the flag records whether the previous character
was white space, in which case further white space is dropped rather than
emitting another space. -/
def collapseWsGo (prevWs : Bool) : List Char → List Char
  | [] => []
  | c :: cs =>
    if isJsWs c then
      if prevWs then collapseWsGo true cs
      else ' ' :: collapseWsGo true cs
    else c :: collapseWsGo false cs

/-- The regex replace of one or more white-space characters by a single
space, applied globally (the first replace in formatEta): every maximal
run of white space becomes one space. -/
def collapseWs (l : List Char) : List Char :=
  collapseWsGo false l

/-- The chained normalization of formatEta: collapse white space, replace
the CJK year and month markers by dashes, delete the day marker, trim. -/
def normalizeEta (l : List Char) : List Char :=
  trimJs ((((collapseWs l).map fun c => if c = '年' then '-' else c).map
    fun c => if c = '月' then '-' else c).filter fun c => c ≠ '日')

/-- JS String.prototype.padStart 2 with the zero character. -/
def padStart2 (l : List Char) : List Char :=
  if l.length < 2 then List.replicate (2 - l.length) '0' ++ l else l

/-- Split a maximal run of ASCII decimal digits off the front. -/
def takeDigits (l : List Char) : List Char × List Char :=
  (l.takeWhile Char.isDigit, l.dropWhile Char.isDigit)

/-- The anchored regex of formatEta, four digit year then dash then one or
two digit month then dash then one or two digit day, as a deterministic
parser: maximal digit runs must have exactly the allowed lengths because a
longer run cannot be split by backtracking (the character after each group
must be a dash or the end). -/
def parseEta (l : List Char) : Option (List Char × List Char × List Char) :=
  let (y, r1) := takeDigits l
  if y.length = 4 then
    match r1 with
    | '-' :: r2 =>
      let (m, r3) := takeDigits r2
      if 1 ≤ m.length ∧ m.length ≤ 2 then
        match r3 with
        | '-' :: r4 =>
          let (d, r5) := takeDigits r4
          if 1 ≤ d.length ∧ d.length ≤ 2 ∧ r5 = [] then some (y, m, d)
          else none
        | _ => none
      else none
    | _ => none
  else none

/-- formatEta from src/cli.ts lines 88 to 110.  The JS disjunction
change_deliver_time or local_delivery_time or empty picks the first truthy
operand; the guard on empty capture groups is kept even though the regex
cannot produce one. -/
def formatEta (item : OrderItem) : String :=
  let dateValue :=
    if item.change_deliver_time ≠ "" then item.change_deliver_time
    else if item.local_delivery_time ≠ "" then item.local_delivery_time
    else ""
  if dateValue = "" then "-"
  else
    match parseEta (normalizeEta dateValue.data) with
    | none => dateValue
    | some (y, m, d) =>
      if y = [] ∨ m = [] ∨ d = [] then dateValue
      else String.mk (y ++ '-' :: (padStart2 m ++ '-' :: padStart2 d))

/-- Body of an ANSI color sequence after the escape and bracket: consume
digits and semicolons up to the terminating letter m, returning the
remainder, or fail. -/
def ansiBody : List Char → Option (List Char)
  | [] => none
  | c :: cs =>
    if c = 'm' then some cs
    else if c.isDigit || c = ';' then ansiBody cs
    else none

/-- Worker of stripAnsi, structurally recursive on a fuel bound that
dominates the list length; every recursive call strictly shrinks the
list. -/
def stripAnsiGo : Nat → List Char → List Char
  | 0, l => l
  | fuel + 1, l =>
    match l with
    | [] => []
    | '\x1b' :: '[' :: cs2 =>
      match ansiBody cs2 with
      | some rest => stripAnsiGo fuel rest
      | none => '\x1b' :: '[' :: stripAnsiGo fuel cs2
    | c :: cs => c :: stripAnsiGo fuel cs

/-- stripAnsi from src/cli.ts line 112: the global regex replace of ANSI
color sequences by nothing.  A failed match at an escape keeps the escape
and rescans from the next character, which can never itself start a
match. -/
def stripAnsi (l : List Char) : List Char :=
  stripAnsiGo l.length l

/-- Character cell width in the model of the string-width package: ANSI is
stripped separately, the null and other control characters count zero,
combining marks count zero, East Asian wide and fullwidth ranges count two,
everything else one. -/
def charWidth (c : Char) : Nat :=
  let n := c.toNat
  if n < 32 || (0x7F ≤ n && n < 0xA0) then 0
  else if 0x300 ≤ n && n ≤ 0x36F then 0
  else if (0x1100 ≤ n && n ≤ 0x115F) || (0x2E80 ≤ n && n ≤ 0x303E) ||
      (0x3041 ≤ n && n ≤ 0x33FF) || (0x3400 ≤ n && n ≤ 0x4DBF) ||
      (0x4E00 ≤ n && n ≤ 0x9FFF) || (0xA000 ≤ n && n ≤ 0xA4CF) ||
      (0xAC00 ≤ n && n ≤ 0xD7A3) || (0xF900 ≤ n && n ≤ 0xFAFF) ||
      (0xFE10 ≤ n && n ≤ 0xFE19) || (0xFE30 ≤ n && n ≤ 0xFE6B) ||
      (0xFF01 ≤ n && n ≤ 0xFF60) || (0xFFE0 ≤ n && n ≤ 0xFFE6) ||
      (0x1F300 ≤ n && n ≤ 0x1F64F) || (0x1F900 ≤ n && n ≤ 0x1F9FF) ||
      (0x20000 ≤ n && n ≤ 0x3FFFD) then 2
  else 1

/-- Terminal cell width of a character list, ANSI already stripped. -/
def strWidth (l : List Char) : Nat :=
  (l.map charWidth).sum

/-- visibleWidth from src/cli.ts line 114: stringWidth of stripAnsi. -/
def visibleWidth (l : List Char) : Nat :=
  strWidth (stripAnsi l)

/-- visibleWidth on strings. -/
def visibleWidthS (s : String) : Nat :=
  visibleWidth s.data

/-- padCell from src/cli.ts lines 116 to 120: pad on the right with spaces
up to the target visible width, never truncating. -/
def padCell (value : String) (width : Nat) : String :=
  value ++ String.mk (List.replicate (width - visibleWidthS value) ' ')

/-- One table row: a record from column label to already formatted display
string, modelled as an association list in key insertion order. -/
def Row : Type := List (String × String)

instance : DecidableEq Row := by
  unfold Row; infer_instance

/-- The JS expression String(row[header]): the cell under a column label,
where an absent key reads as undefined and stringifies to the literal
undefined. -/
def lookupCell (row : Row) (h : String) : String :=
  match List.find? (fun p => p.1 = h) row with
  | some p => p.2
  | none => "undefined"

/-- The column labels of a table: the keys of the first row, or none when
the row list is empty (rows[0] ?? \x7b\x7d in src/cli.ts line 123). -/
def headersOf (rows : List Row) : List String :=
  (rows.head?.getD ([] : List (String × String))).map Prod.fst

/-- The per-column widths of renderTable, src/cli.ts lines 124 to 131:
Math.max of the header visible width and every visible cell width in the
column. -/
def colWidths (rows : List Row) : List Nat :=
  (headersOf rows).map fun h =>
    (rows.map fun row => visibleWidthS (lookupCell row h)).foldl max
      (visibleWidthS h)

/-- buildBorder from src/cli.ts lines 133 to 134. -/
def buildBorder (rows : List Row) (left mid right : String) : String :=
  left ++
    joinSep mid ((colWidths rows).map fun w =>
      String.mk (List.replicate (w + 2) '─')) ++ right

/-- The header line of renderTable, src/cli.ts lines 140 to 142.  The
source indexes widths by position with fallback zero; as widths is built
from headers by map the two lists have equal length and the pairing is
zipWith. -/
def headerLineOf (rows : List Row) : String :=
  "│ " ++
    joinSep " │ " (List.zipWith (fun h w => padCell h w) (headersOf rows)
      (colWidths rows)) ++ " │"

/-- One body line of renderTable, src/cli.ts lines 148 to 153. -/
def bodyLineOf (rows : List Row) (row : Row) : String :=
  "│ " ++
    joinSep " │ " (List.zipWith (fun h w => padCell (lookupCell row h) w)
      (headersOf rows) (colWidths rows)) ++ " │"

/-- renderTable from src/cli.ts lines 122 to 155, as the ordered list of
lines written to standard output. -/
def renderTable (rows : List Row) : List String :=
  [buildBorder rows "┌" "┬" "┐", headerLineOf rows,
    buildBorder rows "├" "┼" "┤"] ++
  rows.map (bodyLineOf rows) ++ [buildBorder rows "└" "┴" "┘"]

/-- The highlight comparison item.sku_number?.toUpperCase() === highlightSku
shared by printSummary and printTable. -/
def matchesHighlight (highlightSku : String) (skuNum : String) : Bool :=
  jsToUpperS skuNum = highlightSku

/-- The highlighted SKU derived from the sku option, src/cli.ts line 55:
argv.sku?.trim().toUpperCase(). -/
def highlightSkuOf (optSku : String) : String :=
  jsToUpperS (trimJsS optSku)

/-- printSummary from src/cli.ts lines 175 to 188, as the single line it
writes to standard output. -/
def printSummary (highlightSku : String) (items : List OrderItem) : String :=
  match items.find? (fun item => matchesHighlight highlightSku item.sku_number) with
  | none =>
    chalkYellow ("Printer SKU " ++ highlightSku ++ " not found in order items.")
  | some printerItem =>
    "Printer (" ++ highlightSku ++ ") status: " ++ statusColor printerItem.status

/-- The table row built for one item in printTable, src/cli.ts lines 191
to 203. -/
def rowOf (highlightSku : String) (item : OrderItem) : Row :=
  let label :=
    if matchesHighlight highlightSku item.sku_number then
      chalkBold (item.product_name ++ " (SKU " ++ item.sku_number ++ ")")
    else item.product_name ++ " (SKU " ++ item.sku_number ++ ")"
  [("Status", statusColor item.status), ("Item", label),
   ("Qty", toString item.quantity), ("Tracking", formatTracking item),
   ("ETA", formatEta item)]

/-- printTable from src/cli.ts lines 190 to 205, as its output lines. -/
def printTable (highlightSku : String) (items : List OrderItem) : List String :=
  renderTable (items.map (rowOf highlightSku))

/-- The input of one invocation of fetchOrder: either the transport call
itself rejects, carrying the error message the catch block will read, or
an HTTP response with a status code and a parsed body arrives. -/
inductive FetchInput where
  | transportError (message : String)
  | response (status : Nat) (body : OrderResponse)
deriving DecidableEq, Repr

/-- fetchOrder from src/cli.ts lines 157 to 173, observed through its error
message as the catch block in run does: a transport rejection propagates
unchanged, a response with status outside 200 to 299 (Response.ok false)
throws a plain Error naming the status, otherwise the parsed body is
returned. -/
def fetchOrder : FetchInput → Except String OrderResponse
  | .transportError message => .error message
  | .response status body =>
    if 200 ≤ status ∧ status ≤ 299 then .ok body
    else .error ("Request failed with status " ++ toString status)

/-- Hexadecimal digit for the control-character escapes of JSON.stringify. -/
def hexDigit (n : Nat) : Char :=
  if n < 10 then Char.ofNat (48 + n) else Char.ofNat (87 + n)

/-- The escaping JSON.stringify applies inside a string literal. -/
def jsonEscapeChar (c : Char) : List Char :=
  if c = '"' then ['\\', '"']
  else if c = '\\' then ['\\', '\\']
  else if c = '\n' then ['\\', 'n']
  else if c = '\r' then ['\\', 'r']
  else if c = '\t' then ['\\', 't']
  else if c = '\x08' then ['\\', 'b']
  else if c = '\x0c' then ['\\', 'f']
  else if c.toNat < 32 then
    ['\\', 'u', '0', '0', hexDigit (c.toNat / 16), hexDigit (c.toNat % 16)]
  else [c]

/-- A JSON string literal. -/
def jsonStr (s : String) : String :=
  "\"" ++ String.mk (s.data.flatMap jsonEscapeChar) ++ "\""

/-- One order item as JSON.stringify with indent two renders it inside the
data array.  Key order follows the field order of the parsed object, fixed
here as the declaration order of OrderItem. -/
def jsonItem (it : OrderItem) : String :=
  "    \x7b\n      \"status\": " ++ jsonStr it.status ++
  ",\n      \"product_name\": " ++ jsonStr it.product_name ++
  ",\n      \"sku_number\": " ++ jsonStr it.sku_number ++
  ",\n      \"quantity\": " ++ toString it.quantity ++
  ",\n      \"tracking_number\": " ++ jsonStr it.tracking_number ++
  ",\n      \"carrier\": " ++ jsonStr it.carrier ++
  ",\n      \"local_delivery_time\": " ++ jsonStr it.local_delivery_time ++
  ",\n      \"change_deliver_time\": " ++ jsonStr it.change_deliver_time ++
  "\n    \x7d"

/-- JSON.stringify(data, null, 2) on the response. -/
def jsonStringify (data : OrderResponse) : String :=
  "\x7b\n  \"success\": " ++ (if data.success then "true" else "false") ++
  ",\n  \"code\": " ++ jsonStr data.code ++
  ",\n  \"message\": " ++ jsonStr data.message ++
  ",\n  \"data\": " ++
  (match data.data with
   | [] => "[]"
   | items => "[\n" ++ joinSep ",\n" (items.map jsonItem) ++ "\n  ]") ++
  "\n\x7d"

/-- The observable outcome of one process run: the exit code and the lines
written to standard output and standard error, in order. -/
structure RunOutcome where
  exitCode : Nat
  stdout : List String
  stderr : List String
deriving DecidableEq, Repr

/-- run from src/cli.ts lines 207 to 232, given the outcome of the fetch,
the json flag and the highlighted SKU.  A caught error prints one red line
with its message and exits nonzero; a parsed response with a false success
flag prints one red line with the code and message of the API and exits
nonzero; the json flag prints the pretty response; an empty item list
prints a yellow note; otherwise the summary line and the table follow. -/
def run (fetchResult : Except String OrderResponse) (jsonFlag : Bool)
    (highlightSku : String) : RunOutcome :=
  match fetchResult with
  | .error message =>
    ⟨1, [], [chalkRed ("Failed to fetch order data: " ++ message)]⟩
  | .ok data =>
    if data.success = false then
      ⟨1, [], [chalkRed ("API error: " ++ data.code ++ " " ++ data.message)]⟩
    else if jsonFlag then ⟨0, [jsonStringify data], []⟩
    else if data.data = [] then ⟨0, [chalkYellow "No order items found."], []⟩
    else
      ⟨0, printSummary highlightSku data.data ::
        printTable highlightSku data.data, []⟩

/-- A character that can neither open a bracket after an escape nor extend
or close the digit body of an ANSI sequence: when the text after a
junction starts with such a character (or is empty), no ANSI match can
span the junction. -/
def ansiSafe (c : Char) : Bool :=
  !(c = '[' || c = 'm' || c = ';' || c.isDigit)

/-- The first character of the list, if any, is ansiSafe. -/
def headSafe : List Char → Prop
  | [] => True
  | c :: _ => ansiSafe c = true

instance (l : List Char) : Decidable (headSafe l) :=
  match l with
  | [] => isTrue trivial
  | c :: _ => inferInstanceAs (Decidable (ansiSafe c = true))

/-- The list contains no escape character. -/
def noEsc (l : List Char) : Prop :=
  ∀ c ∈ l, c ≠ '\x1b'

instance (l : List Char) : Decidable (noEsc l) :=
  inferInstanceAs (Decidable (∀ c ∈ l, c ≠ '\x1b'))

/-- The claimed common visible width of every rendered table line: the sum
of the column widths plus three characters per column (two margin spaces
and one border) plus the one extra closing border character. -/
def tableWidth (rows : List Row) : Nat :=
  (colWidths rows).sum + 3 * (colWidths rows).length + 1

/-- The chalk color function statusColor uses for each display class. -/
def statusColorOfClass : StatusClass → String → String
  | .shipped => chalkGreen
  | .pending => chalkYellow
  | .other => chalkBlue

/-- Does the first list occur at the start of the second. -/
def strStarts : List Char → List Char → Bool
  | [], _ => true
  | _ :: _, [] => false
  | a :: as, b :: bs => a = b && strStarts as bs

/-- Does the needle occur contiguously anywhere in the haystack. -/
def strHas (needle : List Char) : List Char → Bool
  | [] => strStarts needle []
  | c :: cs => strStarts needle (c :: cs) || strHas needle cs

/-- The ETA formatter stated in the words of the specification, for the
refinement claim: prefer the override delivery time over the default one,
display a dash when both are absent, zero-pad a string matching the date
pattern after the separator normalization, and fall back to the raw string
otherwise. -/
def formatEtaSpec (item : OrderItem) : String :=
  let chosen :=
    if item.change_deliver_time ≠ "" then item.change_deliver_time
    else item.local_delivery_time
  if chosen = "" then "-"
  else
    match parseEta (normalizeEta chosen.data) with
    | some (y, m, d) => String.mk (y ++ '-' :: (padStart2 m ++ '-' :: padStart2 d))
    | none => chosen

theorem ansiBody_length : ∀ l r, ansiBody l = some r → r.length < l.length := by
  intro l
  induction l with
  | nil => intro r h; simp [ansiBody] at h
  | cons c cs ih =>
    intro r h
    simp only [ansiBody] at h
    split at h
    · cases h; simp
    · split at h
      · exact Nat.lt_trans (ih r h) (by simp)
      · cases h

theorem stripAnsiGo_nil (f : Nat) : stripAnsiGo f [] = [] := by
  cases f <;> rfl

theorem stripAnsiGo_cons_ne (f : Nat) (c : Char) (cs : List Char)
    (h : c ≠ '\x1b') :
    stripAnsiGo (f + 1) (c :: cs) = c :: stripAnsiGo f cs := by
  simp only [stripAnsiGo]
  split
  next => rename_i h2; simp at h2
  next => rename_i heq; injection heq with e1 _; exact absurd e1 h
  next => rename_i heq; injection heq with e1 e2; rw [e1, e2]

theorem stripAnsiGo_esc_ne_br (f : Nat) (x : Char) (cs : List Char)
    (hx : x ≠ '[') :
    stripAnsiGo (f + 1) ('\x1b' :: x :: cs) =
      '\x1b' :: stripAnsiGo f (x :: cs) := by
  simp only [stripAnsiGo]
  split
  next => rename_i h2; simp at h2
  next =>
    rename_i heq
    injection heq with _ e2
    injection e2 with e3 _
    exact absurd e3 hx
  next => rename_i heq; injection heq with e1 e2; rw [e1, e2]

/-- The fuel of stripAnsiGo is irrelevant above the list length. -/
theorem stripAnsiGo_congr :
    ∀ (f : Nat), ∀ (l : List Char) (g : Nat), l.length ≤ f → l.length ≤ g →
      stripAnsiGo f l = stripAnsiGo g l := by
  intro f
  induction f with
  | zero =>
    intro l g hf _
    have hl : l = [] := List.eq_nil_of_length_eq_zero (Nat.le_zero.mp hf)
    subst hl
    rw [stripAnsiGo_nil, stripAnsiGo_nil]
  | succ f ih =>
    intro l g hf hg
    cases g with
    | zero =>
      have hl : l = [] := List.eq_nil_of_length_eq_zero (Nat.le_zero.mp hg)
      subst hl
      rw [stripAnsiGo_nil, stripAnsiGo_nil]
    | succ g =>
      cases l with
      | nil => rw [stripAnsiGo_nil, stripAnsiGo_nil]
      | cons c t =>
        by_cases hc : c = '\x1b'
        · subst hc
          cases t with
          | nil =>
            show '\x1b' :: stripAnsiGo f [] = '\x1b' :: stripAnsiGo g []
            rw [stripAnsiGo_nil, stripAnsiGo_nil]
          | cons d u =>
            by_cases hd : d = '['
            · subst hd
              simp only [List.length_cons] at hf hg
              show (match ansiBody u with
                | some rest => stripAnsiGo f rest
                | none => '\x1b' :: '[' :: stripAnsiGo f u) =
                (match ansiBody u with
                | some rest => stripAnsiGo g rest
                | none => '\x1b' :: '[' :: stripAnsiGo g u)
              cases hr : ansiBody u with
              | some rest =>
                have := ansiBody_length _ _ hr
                exact ih rest g (by omega) (by omega)
              | none => rw [ih u g (by omega) (by omega)]
            · simp only [List.length_cons] at hf hg
              rw [stripAnsiGo_esc_ne_br f d u hd,
                stripAnsiGo_esc_ne_br g d u hd,
                ih (d :: u) g (by simp; omega) (by simp; omega)]
        · simp only [List.length_cons] at hf hg
          rw [stripAnsiGo_cons_ne f c t hc, stripAnsiGo_cons_ne g c t hc,
            ih t g (by omega) (by omega)]

theorem stripAnsiGo_esc_br (f : Nat) (cs2 : List Char) :
    stripAnsiGo (f + 1) ('\x1b' :: '[' :: cs2) =
      match ansiBody cs2 with
      | some rest => stripAnsiGo f rest
      | none => '\x1b' :: '[' :: stripAnsiGo f cs2 := rfl

theorem stripAnsi_nil : stripAnsi [] = [] := rfl

theorem stripAnsi_cons_ne (c : Char) (cs : List Char) (h : c ≠ '\x1b') :
    stripAnsi (c :: cs) = c :: stripAnsi cs := by
  show stripAnsiGo (cs.length + 1) (c :: cs) = c :: stripAnsi cs
  rw [stripAnsiGo_cons_ne _ _ _ h]
  rfl

theorem stripAnsi_esc_some (cs2 rest : List Char)
    (h : ansiBody cs2 = some rest) :
    stripAnsi ('\x1b' :: '[' :: cs2) = stripAnsi rest := by
  have hlen := ansiBody_length _ _ h
  show stripAnsiGo (cs2.length + 1 + 1) ('\x1b' :: '[' :: cs2) = stripAnsi rest
  rw [stripAnsiGo_esc_br, h]
  exact stripAnsiGo_congr (cs2.length + 1) rest rest.length (by omega)
    (Nat.le_refl _)

theorem stripAnsi_esc_none (cs2 : List Char) (h : ansiBody cs2 = none) :
    stripAnsi ('\x1b' :: '[' :: cs2) = '\x1b' :: '[' :: stripAnsi cs2 := by
  show stripAnsiGo (cs2.length + 1 + 1) ('\x1b' :: '[' :: cs2) = _
  rw [stripAnsiGo_esc_br, h,
    stripAnsiGo_congr (cs2.length + 1) cs2 cs2.length (by omega)
      (Nat.le_refl _)]
  rfl

theorem stripAnsi_esc_nil : stripAnsi ['\x1b'] = ['\x1b'] := rfl

theorem stripAnsi_esc_ne_br (x : Char) (cs : List Char) (hx : x ≠ '[') :
    stripAnsi ('\x1b' :: x :: cs) = '\x1b' :: stripAnsi (x :: cs) := by
  show stripAnsiGo (cs.length + 1 + 1) ('\x1b' :: x :: cs) = _
  rw [stripAnsiGo_esc_ne_br _ _ _ hx]
  rfl

theorem ansiBody_append (b : List Char) (hb : headSafe b) :
    ∀ x : List Char, ansiBody (x ++ b) = (ansiBody x).map (fun r => r ++ b) := by
  intro x
  induction x with
  | nil =>
    simp only [List.nil_append, ansiBody, Option.map_none']
    cases b with
    | nil => simp [ansiBody]
    | cons c t =>
      have hc : ansiSafe c = true := hb
      simp only [ansiSafe, Bool.not_eq_true', Bool.or_eq_false_iff,
        decide_eq_false_iff_not] at hc
      simp [ansiBody, hc.1.2, hc.2, hc.1.1.2]
  | cons c cs ih =>
    simp only [List.cons_append, ansiBody]
    split
    · simp
    · split
      · exact ih
      · simp

theorem stripAnsi_append_aux (n : Nat) :
    ∀ a b : List Char, a.length < n → headSafe b →
      stripAnsi (a ++ b) = stripAnsi a ++ stripAnsi b := by
  induction n with
  | zero => intro a b h; omega
  | succ n ih =>
    intro a b hlen hb
    cases a with
    | nil => simp [stripAnsi_nil]
    | cons c t =>
      by_cases hc : c = '\x1b'
      · subst hc
        cases t with
        | nil =>
          simp only [List.cons_append, List.nil_append, stripAnsi_esc_nil]
          cases b with
          | nil => simp [stripAnsi_nil, stripAnsi_esc_nil]
          | cons d u =>
            have hd : ansiSafe d = true := hb
            have hdne : d ≠ '[' := by
              simp only [ansiSafe, Bool.not_eq_true', Bool.or_eq_false_iff,
                decide_eq_false_iff_not] at hd
              exact hd.1.1.1
            rw [stripAnsi_esc_ne_br d u hdne]
            try simp
        | cons d u =>
          by_cases hd : d = '['
          · subst hd
            simp only [List.cons_append]
            cases hr : ansiBody u with
            | some r =>
              have hr2 : ansiBody (u ++ b) = some (r ++ b) := by
                have := ansiBody_append b hb u
                rw [hr] at this
                simpa using this
              rw [stripAnsi_esc_some _ _ hr2, stripAnsi_esc_some _ _ hr]
              have hrl := ansiBody_length _ _ hr
              exact ih r b (by simp at hlen; omega) hb
            | none =>
              have hr2 : ansiBody (u ++ b) = none := by
                have := ansiBody_append b hb u
                rw [hr] at this
                simpa using this
              rw [stripAnsi_esc_none _ hr2, stripAnsi_esc_none _ hr]
              rw [ih u b (by simp at hlen; omega) hb]
              simp
          · simp only [List.cons_append]
            rw [stripAnsi_esc_ne_br d (u ++ b) hd, stripAnsi_esc_ne_br d u hd]
            rw [← List.cons_append, ih (d :: u) b (by simp at hlen ⊢; omega) hb]
            simp
      · simp only [List.cons_append]
        rw [stripAnsi_cons_ne c (t ++ b) hc, stripAnsi_cons_ne c t hc]
        rw [ih t b (by simp at hlen; omega) hb]
        simp

theorem stripAnsi_append (a b : List Char) (hb : headSafe b) :
    stripAnsi (a ++ b) = stripAnsi a ++ stripAnsi b :=
  stripAnsi_append_aux (a.length + 1) a b (Nat.lt_succ_self _) hb

theorem stripAnsi_append_noEsc (a b : List Char) (ha : noEsc a) :
    stripAnsi (a ++ b) = a ++ stripAnsi b := by
  induction a with
  | nil => simp
  | cons c t ih =>
    have hc : c ≠ '\x1b' := ha c (by simp)
    simp only [List.cons_append]
    rw [stripAnsi_cons_ne c (t ++ b) hc, ih (fun x hx => ha x (by simp [hx]))]

theorem stripAnsi_noEsc (a : List Char) (ha : noEsc a) : stripAnsi a = a := by
  have := stripAnsi_append_noEsc a [] ha
  simpa [stripAnsi_nil] using this

theorem strWidth_append (a b : List Char) :
    strWidth (a ++ b) = strWidth a + strWidth b := by
  simp [strWidth]

theorem visibleWidth_append_safe (a b : List Char) (hb : headSafe b) :
    visibleWidth (a ++ b) = visibleWidth a + visibleWidth b := by
  rw [visibleWidth, stripAnsi_append a b hb, strWidth_append]
  rfl

theorem visibleWidth_append_noEsc (a b : List Char) (ha : noEsc a) :
    visibleWidth (a ++ b) = strWidth a + visibleWidth b := by
  rw [visibleWidth, stripAnsi_append_noEsc a b ha, strWidth_append]
  rfl

theorem visibleWidth_noEsc (a : List Char) (ha : noEsc a) :
    visibleWidth a = strWidth a := by
  rw [visibleWidth, stripAnsi_noEsc a ha]

theorem headSafe_replicate_space (n : Nat) :
    headSafe (List.replicate n ' ') := by
  cases n with
  | zero => trivial
  | succ m =>
    rw [List.replicate_succ]
    show ansiSafe ' ' = true
    decide

theorem strWidth_replicate (n : Nat) (c : Char) :
    strWidth (List.replicate n c) = n * charWidth c := by
  induction n with
  | zero => simp [strWidth]
  | succ m ih =>
    rw [List.replicate_succ]
    simp only [strWidth, List.map_cons, List.sum_cons] at ih ⊢
    rw [ih, Nat.succ_mul]
    omega

/-- Padding a cell whose visible width is at most the target width yields
exactly the target width. -/
theorem visibleWidthS_padCell (v : String) (w : Nat) (hw : visibleWidthS v ≤ w) :
    visibleWidthS (padCell v w) = w := by
  have hdata : (padCell v w).data =
      v.data ++ List.replicate (w - visibleWidthS v) ' ' := by
    simp [padCell]
  rw [visibleWidthS, hdata,
    visibleWidth_append_safe _ _ (headSafe_replicate_space _)]
  have hs : visibleWidth (List.replicate (w - visibleWidthS v) ' ') =
      w - visibleWidthS v := by
    rw [visibleWidth_noEsc _ (fun c hc => by
      rw [List.eq_of_mem_replicate hc]; decide), strWidth_replicate]
    have : charWidth ' ' = 1 := by decide
    rw [this, Nat.mul_one]
  rw [hs]
  rw [visibleWidthS] at hw ⊢
  omega

/-- Visible width of a separator-joined list when the separator is
nonempty, starts safely, and contains no escape. -/
theorem visibleWidthS_joinSep (sep : String) (hne : sep.data ≠ [])
    (hsafe : headSafe sep.data) (hesc : noEsc sep.data) :
    ∀ xs : List String, visibleWidthS (joinSep sep xs) =
      (xs.map visibleWidthS).sum + strWidth sep.data * (xs.length - 1) := by
  intro xs
  induction xs with
  | nil => simp [joinSep, visibleWidthS, visibleWidth, stripAnsi_nil, strWidth]
  | cons x ys ih =>
    cases ys with
    | nil => simp [joinSep]
    | cons y zs =>
      have hstep : joinSep sep (x :: y :: zs) =
          x ++ sep ++ joinSep sep (y :: zs) := rfl
      have hsafe2 : headSafe (sep.data ++ (joinSep sep (y :: zs)).data) := by
        cases hd : sep.data with
        | nil => exact absurd hd hne
        | cons a t =>
          rw [hd] at hsafe
          show ansiSafe a = true
          exact hsafe
      have e1 : visibleWidthS (joinSep sep (x :: y :: zs)) =
          visibleWidthS x +
            (strWidth sep.data + visibleWidthS (joinSep sep (y :: zs))) := by
        rw [hstep]
        show visibleWidth (x ++ sep ++ joinSep sep (y :: zs)).data = _
        have hdata : (x ++ sep ++ joinSep sep (y :: zs)).data =
            x.data ++ (sep.data ++ (joinSep sep (y :: zs)).data) := by simp
        rw [hdata, visibleWidth_append_safe _ _ hsafe2,
          visibleWidth_append_noEsc _ _ hesc]
        rfl
      rw [e1, ih]
      simp only [List.map_cons, List.sum_cons, List.length_cons,
        Nat.add_sub_cancel]
      have harith : strWidth sep.data * (zs.length + 1) =
          strWidth sep.data * zs.length + strWidth sep.data := by
        simp [Nat.mul_succ]
      omega

theorem le_foldl_max (a : Nat) (l : List Nat) : a ≤ l.foldl max a := by
  induction l generalizing a with
  | nil => simp
  | cons x t ih =>
    simp only [List.foldl_cons]
    exact le_trans (Nat.le_max_left a x) (ih (max a x))

theorem mem_le_foldl_max (a x : Nat) (l : List Nat) (hx : x ∈ l) :
    x ≤ l.foldl max a := by
  induction l generalizing a with
  | nil => simp at hx
  | cons y t ih =>
    simp only [List.foldl_cons]
    rcases List.mem_cons.mp hx with h | h
    · subst h
      exact le_trans (Nat.le_max_right a x) (le_foldl_max _ t)
    · exact ih (max a y) h

theorem foldl_max_eq_max_foldr (a : Nat) (l : List Nat) :
    l.foldl max a = max a (l.foldr max 0) := by
  induction l generalizing a with
  | nil => simp
  | cons x t ih =>
    simp only [List.foldl_cons, List.foldr_cons, ih (max a x)]
    omega

theorem toNat_ofNat_valid (n : Nat) (h : n < 0xD800) :
    (Char.ofNat n).toNat = n := by
  rw [Char.ofNat, dif_pos (Or.inl h)]
  rfl

theorem toUpper_toLower (c : Char) : c.toLower.toUpper = c.toUpper := by
  unfold Char.toLower Char.toUpper
  by_cases h : 65 ≤ c.toNat ∧ c.toNat ≤ 90
  · rw [if_pos h]
    have ht : (Char.ofNat (c.toNat + 32)).toNat = c.toNat + 32 :=
      toNat_ofNat_valid _ (by omega)
    rw [ht, if_pos (by omega), if_neg (by omega)]
    have h2 : c.toNat + 32 - 32 = c.toNat := by omega
    rw [h2, Char.ofNat_toNat]
  · rw [if_neg h]

theorem toUpper_toUpper (c : Char) : c.toUpper.toUpper = c.toUpper := by
  unfold Char.toUpper
  by_cases h : 97 ≤ c.toNat ∧ c.toNat ≤ 122
  · rw [if_pos h]
    have ht : (Char.ofNat (c.toNat - 32)).toNat = c.toNat - 32 :=
      toNat_ofNat_valid _ (by omega)
    rw [if_neg (by omega)]
  · rw [if_neg h, if_neg h]

theorem isJsWs_toLower (c : Char) : isJsWs c.toLower = isJsWs c := by
  unfold Char.toLower
  by_cases h : 65 ≤ c.toNat ∧ c.toNat ≤ 90
  · rw [if_pos h]
    have ht : (Char.ofNat (c.toNat + 32)).toNat = c.toNat + 32 :=
      toNat_ofNat_valid _ (by omega)
    simp only [isJsWs, ht]
    have e1 : ∀ m : Nat, 65 ≤ m → m ≤ 122 →
        ((9 ≤ m && m ≤ 13) || m = 32 || m = 160 || m = 0x1680 ||
          (0x2000 ≤ m && m ≤ 0x200A) || m = 0x2028 || m = 0x2029 ||
          m = 0x202F || m = 0x205F || m = 0x3000 || m = 0xFEFF) = false := by
      intro m h1 h2
      simp only [Bool.or_eq_false_iff, Bool.and_eq_false_iff,
        decide_eq_false_iff_not]
      omega
    rw [e1 _ (by omega) (by omega), e1 _ (by omega) (by omega)]
  · rw [if_neg h]

theorem isJsWs_toUpper (c : Char) : isJsWs c.toUpper = isJsWs c := by
  unfold Char.toUpper
  by_cases h : 97 ≤ c.toNat ∧ c.toNat ≤ 122
  · rw [if_pos h]
    have ht : (Char.ofNat (c.toNat - 32)).toNat = c.toNat - 32 :=
      toNat_ofNat_valid _ (by omega)
    simp only [isJsWs, ht]
    have e1 : ∀ m : Nat, 65 ≤ m → m ≤ 122 →
        ((9 ≤ m && m ≤ 13) || m = 32 || m = 160 || m = 0x1680 ||
          (0x2000 ≤ m && m ≤ 0x200A) || m = 0x2028 || m = 0x2029 ||
          m = 0x202F || m = 0x205F || m = 0x3000 || m = 0xFEFF) = false := by
      intro m h1 h2
      simp only [Bool.or_eq_false_iff, Bool.and_eq_false_iff,
        decide_eq_false_iff_not]
      omega
    rw [e1 _ (by omega) (by omega), e1 _ (by omega) (by omega)]
  · rw [if_neg h]

theorem dropWhile_map_invariant (p : Char → Bool) (f : Char → Char)
    (hf : ∀ c, p (f c) = p c) (l : List Char) :
    (l.map f).dropWhile p = (l.dropWhile p).map f := by
  rw [List.dropWhile_map]
  have hcomp : (p ∘ f) = p := funext hf
  rw [hcomp]

theorem trimJs_map_invariant (f : Char → Char)
    (hf : ∀ c, isJsWs (f c) = isJsWs c) (l : List Char) :
    trimJs (l.map f) = (trimJs l).map f := by
  unfold trimJs
  rw [dropWhile_map_invariant _ _ hf, ← List.map_reverse,
    dropWhile_map_invariant _ _ hf, ← List.map_reverse]

theorem jsToUpperS_toLower (s : String) :
    jsToUpperS (jsToLowerS s) = jsToUpperS s := by
  unfold jsToUpperS jsToLowerS
  simp only [List.map_map]
  congr 1
  apply List.map_congr_left
  intro c _
  exact toUpper_toLower c

theorem jsToUpperS_toUpper (s : String) :
    jsToUpperS (jsToUpperS s) = jsToUpperS s := by
  unfold jsToUpperS
  simp only [List.map_map]
  congr 1
  apply List.map_congr_left
  intro c _
  exact toUpper_toUpper c

theorem highlightSkuOf_toLower (s : String) :
    highlightSkuOf (jsToLowerS s) = highlightSkuOf s := by
  unfold highlightSkuOf trimJsS
  have h1 : (jsToLowerS s).data = s.data.map Char.toLower := rfl
  rw [h1, trimJs_map_invariant _ isJsWs_toLower]
  have h2 : jsToUpperS (String.mk ((trimJs s.data).map Char.toLower)) =
      jsToUpperS (jsToLowerS (String.mk (trimJs s.data))) := rfl
  rw [h2, jsToUpperS_toLower]

theorem highlightSkuOf_toUpper (s : String) :
    highlightSkuOf (jsToUpperS s) = highlightSkuOf s := by
  unfold highlightSkuOf trimJsS
  have h1 : (jsToUpperS s).data = s.data.map Char.toUpper := rfl
  rw [h1, trimJs_map_invariant _ isJsWs_toUpper]
  have h2 : jsToUpperS (String.mk ((trimJs s.data).map Char.toUpper)) =
      jsToUpperS (jsToUpperS (String.mk (trimJs s.data))) := rfl
  rw [h2, jsToUpperS_toUpper]

theorem trimJs_wrap (pre post x : List Char)
    (hpre : ∀ c ∈ pre, isJsWs c = true) (hpost : ∀ c ∈ post, isJsWs c = true) :
    trimJs (pre ++ x ++ post) = trimJs x := by
  unfold trimJs
  rw [List.append_assoc, List.dropWhile_append_of_pos hpre]
  rw [List.dropWhile_append]
  by_cases hx : (x.dropWhile isJsWs).isEmpty
  · rw [if_pos hx]
    have hpost2 : post.dropWhile isJsWs = [] := by
      rw [List.dropWhile_eq_nil_iff]
      exact hpost
    rw [hpost2]
    simp [List.isEmpty_iff.mp hx]
  · rw [if_neg hx]
    rw [List.reverse_append, List.dropWhile_append_of_pos
      (by intro c hc; exact hpost c (List.mem_reverse.mp hc))]

/-- C10: called with zero rows the table renderer is total and emits the
degenerate four line table of top border, empty header line, divider and
bottom border, deriving an empty header set from the missing first row. -/
theorem c10_render_table_empty :
    renderTable [] = ["┌┐", "│  │", "├┤", "└┘"] ∧ headersOf [] = [] := by
  exact ⟨rfl, rfl⟩

/-- C1 counterexample: for an item whose only delivery time string is
2024-3-5 the ETA formatter does not return the string unchanged, contrary
to the claim, because the date pattern accepts one and two digit month and
day groups. -/
theorem c1_counterexample :
    formatEta { blankItem with local_delivery_time := "2024-3-5" } ≠
      "2024-3-5" := by
  decide

/-- C1 amended: for an item whose only delivery time string is 2024-3-5 the
ETA formatter returns the zero padded 2024-03-05, since the pattern of four
digits, dash, one or two digits, dash, one or two digits does match. -/
theorem c1_eta_pads_dashed_date :
    formatEta { blankItem with local_delivery_time := "2024-3-5" } =
      "2024-03-05" := by
  decide

/-- C2 counterexample: the fetcher has no distinct error types; a transport
rejection whose message happens to read like the status message gives a
result identical to that of an HTTP status failure, so the two failure
kinds are not distinguishable in the result. -/
theorem c2_counterexample :
    fetchOrder (.transportError "Request failed with status 500") =
      fetchOrder (.response 500 ⟨true, "", "", []⟩) ∧
    fetchOrder (.transportError "Request failed with status 500") =
      .error "Request failed with status 500" := by
  exact ⟨rfl, rfl⟩

/-- C2 amended: the fetcher rejects with the transport error unchanged when
the transport call itself errors, and with a plain Error whose message
names the status when the response status is outside 200 to 299; both are
ordinary errors distinguished only by their message text. -/
theorem c2_fetch_error_messages :
    (∀ message : String,
      fetchOrder (.transportError message) = .error message) ∧
    (∀ (status : Nat) (body : OrderResponse),
      ¬(200 ≤ status ∧ status ≤ 299) →
      fetchOrder (.response status body) =
        .error ("Request failed with status " ++ toString status)) ∧
    (∀ (status : Nat) (body : OrderResponse), 200 ≤ status ∧ status ≤ 299 →
      fetchOrder (.response status body) = .ok body) := by
  refine ⟨fun message => rfl, ?_, ?_⟩
  · intro status body h
    simp [fetchOrder, h]
  · intro status body h
    simp [fetchOrder, h]

theorem c2_fetch_error_messages_witness :
    fetchOrder (.response 404 ⟨true, "", "", []⟩) =
      .error ("Request failed with status " ++ toString 404) :=
  c2_fetch_error_messages.2.1 404 ⟨true, "", "", []⟩ (by decide)

/-- C6: the tracking formatter returns a dash when no tracking number is
present, the carrier prefixed tracking number when a carrier is known, and
the bare tracking number otherwise, with the three concrete examples of
the claim. -/
theorem c6_format_tracking :
    (∀ item : OrderItem, item.tracking_number = "" →
      formatTracking item = "-") ∧
    (∀ item : OrderItem, item.tracking_number ≠ "" → item.carrier ≠ "" →
      formatTracking item = item.carrier ++ " " ++ item.tracking_number) ∧
    (∀ item : OrderItem, item.tracking_number ≠ "" → item.carrier = "" →
      formatTracking item = item.tracking_number) ∧
    formatTracking { blankItem with
      tracking_number := "1Z999", carrier := "UPS" } = "UPS 1Z999" ∧
    formatTracking { blankItem with tracking_number := "1Z999" } = "1Z999" ∧
    formatTracking blankItem = "-" := by
  refine ⟨?_, ?_, ?_, by decide, by decide, by decide⟩
  · intro item h
    simp [formatTracking, h]
  · intro item h1 h2
    simp [formatTracking, h1, h2]
  · intro item h1 h2
    simp [formatTracking, h1, h2]

theorem c6_format_tracking_witness :
    formatTracking { blankItem with
      tracking_number := "T1", carrier := "DHL" } = "DHL T1" :=
  c6_format_tracking.2.1 _ (by decide) (by decide)

/-- C7: a parsed response whose success flag is false with code E01 and
message bad backer makes the run exit nonzero, writing exactly one line to
standard error, and that line contains the code and the message of the
API, whatever the json flag and the highlighted SKU are. -/
theorem c7_api_error_exit :
    ∀ (jsonFlag : Bool) (highlightSku : String),
      run (.ok ⟨false, "E01", "bad backer", []⟩) jsonFlag highlightSku =
        ⟨1, [], [chalkRed "API error: E01 bad backer"]⟩ ∧
      (run (.ok ⟨false, "E01", "bad backer", []⟩) jsonFlag
        highlightSku).exitCode ≠ 0 ∧
      (run (.ok ⟨false, "E01", "bad backer", []⟩) jsonFlag
        highlightSku).stderr.length = 1 ∧
      strHas "E01".data (chalkRed "API error: E01 bad backer").data = true ∧
      strHas "bad backer".data
        (chalkRed "API error: E01 bad backer").data = true := by
  intro jsonFlag highlightSku
  have h1 : run (.ok ⟨false, "E01", "bad backer", []⟩) jsonFlag highlightSku =
      ⟨1, [], [chalkRed "API error: E01 bad backer"]⟩ := rfl
  refine ⟨h1, ?_, ?_, by decide, by decide⟩
  · rw [h1]
    decide
  · rw [h1]
    decide

/-- C9: the status classifier is invariant under leading and trailing
white-space padding, because the status is trimmed before comparison. -/
theorem c9_status_trim_invariant :
    ∀ (s : String) (pre post : List Char),
      (∀ c ∈ pre, isJsWs c = true) → (∀ c ∈ post, isJsWs c = true) →
      statusClassOf (String.mk (pre ++ s.data ++ post)) = statusClassOf s := by
  intro s pre post hpre hpost
  have hn : normalizeStatus (String.mk (pre ++ s.data ++ post)) =
      normalizeStatus s := by
    unfold normalizeStatus trimJsS
    have h1 : (String.mk (pre ++ s.data ++ post)).data =
        pre ++ s.data ++ post := rfl
    rw [h1, trimJs_wrap _ _ _ hpre hpost]
  unfold statusClassOf
  rw [hn]

theorem c9_status_trim_invariant_witness :
    statusClassOf (String.mk ([' '] ++ "Shipped".data ++ [' '])) =
      StatusClass.shipped := by
  rw [c9_status_trim_invariant "Shipped" [' '] [' '] (by decide) (by decide)]
  decide


theorem parseEta_some_nonempty (l y m d : List Char)
    (h : parseEta l = some (y, m, d)) : ¬(y = [] ∨ m = [] ∨ d = []) := by
  unfold parseEta takeDigits at h
  simp only at h
  split at h
  · split at h
    · split at h
      · split at h
        · split at h
          · rename_i h4 hy hm r4 hd2
            injection h with h
            injection h with hy2 h
            injection h with hm2 hd3
            subst hy2; subst hm2; subst hd3
            push_neg
            refine ⟨?_, ?_, ?_⟩ <;> (intro he; simp_all)
          · cases h
        · cases h
      · cases h
    · cases h
  · cases h

/-- C5: the ETA formatter prefers the override delivery time over the
default scheduled one, returns a dash when both are absent, normalizes a
string matching the date pattern to the zero padded form as in the
2024年03月05日 example, and returns the raw string otherwise; formatEta
agrees everywhere with the formatter stated in the words of the
specification. -/
theorem c5_format_eta_spec :
    (∀ item : OrderItem, formatEta item = formatEtaSpec item) ∧
    formatEta { blankItem with change_deliver_time := "2024年03月05日" } =
      "2024-03-05" ∧
    formatEta blankItem = "-" ∧
    (∀ item : OrderItem, item.change_deliver_time ≠ "" →
      formatEta item = formatEta { item with local_delivery_time := "" }) := by
  refine ⟨?_, by decide, by decide, ?_⟩
  · intro item
    unfold formatEta formatEtaSpec
    by_cases h1 : item.change_deliver_time = ""
    · by_cases h2 : item.local_delivery_time = ""
      · simp [h1, h2]
      · simp only [h1, h2, ne_eq, not_true_eq_false, if_false,
          not_false_eq_true, if_true, ite_not]
        cases hp : parseEta (normalizeEta item.local_delivery_time.data) with
        | none => simp [hp]
        | some t =>
          obtain ⟨y, m, d⟩ := t
          simp [hp, if_neg (parseEta_some_nonempty _ _ _ _ hp)]
    · simp only [h1, ne_eq, not_false_eq_true, if_true, ite_not]
      cases hp : parseEta (normalizeEta item.change_deliver_time.data) with
      | none => simp [hp, h1]
      | some t =>
        obtain ⟨y, m, d⟩ := t
        simp [hp, h1, if_neg (parseEta_some_nonempty _ _ _ _ hp)]
  · intro item h
    simp [formatEta, h]


/-- C4: the status classifier is total, sending Shipped, SHIPPED and
shipped to the shipped class, Not Ship and waiting to the pending class,
In Transit and every other unrecognized string to the other class, and
statusColor applies exactly the chalk color of that one class. -/
theorem c4_status_classifier_total :
    statusClassOf "Shipped" = .shipped ∧ statusClassOf "SHIPPED" = .shipped ∧
    statusClassOf "shipped" = .shipped ∧
    statusClassOf "Not Ship" = .pending ∧ statusClassOf "waiting" = .pending ∧
    statusClassOf "In Transit" = .other ∧
    (∀ s : String, normalizeStatus s ≠ "shipped" →
      normalizeStatus s ≠ "not ship" → normalizeStatus s ≠ "waiting" →
      statusClassOf s = .other) ∧
    (∀ s : String, statusColor s = statusColorOfClass (statusClassOf s) s) := by
  refine ⟨by decide, by decide, by decide, by decide, by decide, by decide,
    ?_, ?_⟩
  · intro s h1 h2 h3
    unfold statusClassOf
    rw [if_neg h1, if_neg (not_or.mpr ⟨h2, h3⟩)]
  · intro s
    unfold statusColor statusClassOf statusColorOfClass
    by_cases h1 : normalizeStatus s = "shipped"
    · simp [h1]
    · by_cases h2 : normalizeStatus s = "not ship" ∨ normalizeStatus s = "waiting"
      · simp [h1, h2]
      · simp [h1, h2]

theorem c5_format_eta_spec_witness :
    formatEta ⟨"", "", "", 0, "", "", "2025-01-02", "2024-12-1"⟩ =
      formatEta ⟨"", "", "", 0, "", "", "", "2024-12-1"⟩ :=
  c5_format_eta_spec.2.2.2 ⟨"", "", "", 0, "", "", "2025-01-02", "2024-12-1"⟩
    (by decide)

theorem c4_status_classifier_total_witness :
    statusClassOf "gibberish" = .other :=
  c4_status_classifier_total.2.2.2.2.2.2.1 "gibberish" (by decide) (by decide)
    (by decide)

/-- C8: the highlighted SKU comparison used by both the summary line and
the table highlighting is insensitive to the case of the sku option and of
the item SKU; when no item matches, printSummary returns the yellow not
found note and the run still completes with exit code zero, printing the
summary followed by the table. -/
theorem c8_sku_case_insensitive :
    (∀ optSku skuNum : String,
      matchesHighlight (highlightSkuOf optSku) (jsToLowerS skuNum) =
        matchesHighlight (highlightSkuOf optSku) skuNum ∧
      matchesHighlight (highlightSkuOf optSku) (jsToUpperS skuNum) =
        matchesHighlight (highlightSkuOf optSku) skuNum ∧
      matchesHighlight (highlightSkuOf (jsToLowerS optSku)) skuNum =
        matchesHighlight (highlightSkuOf optSku) skuNum ∧
      matchesHighlight (highlightSkuOf (jsToUpperS optSku)) skuNum =
        matchesHighlight (highlightSkuOf optSku) skuNum) ∧
    (∀ (highlightSku : String) (items : List OrderItem),
      (∀ it ∈ items, matchesHighlight highlightSku it.sku_number = false) →
      printSummary highlightSku items =
        chalkYellow ("Printer SKU " ++ highlightSku ++
          " not found in order items.")) ∧
    (∀ (data : OrderResponse) (highlightSku : String),
      data.success = true → data.data ≠ [] →
      (run (.ok data) false highlightSku).exitCode = 0 ∧
      (run (.ok data) false highlightSku).stdout =
        printSummary highlightSku data.data ::
          printTable highlightSku data.data) := by
  refine ⟨?_, ?_, ?_⟩
  · intro optSku skuNum
    refine ⟨?_, ?_, ?_, ?_⟩
    · unfold matchesHighlight
      rw [jsToUpperS_toLower]
    · unfold matchesHighlight
      rw [jsToUpperS_toUpper]
    · rw [highlightSkuOf_toLower]
    · rw [highlightSkuOf_toUpper]
  · intro hs items h
    unfold printSummary
    have hfind : items.find? (fun item => matchesHighlight hs item.sku_number)
        = none := by
      rw [List.find?_eq_none]
      intro x hx
      simp [h x hx]
    rw [hfind]
  · intro data hs h1 h2
    unfold run
    simp [h1, h2]

theorem c8_sku_case_insensitive_witness :
    printSummary "V8260J40" [{ blankItem with sku_number := "OTHER1" }] =
      chalkYellow ("Printer SKU " ++ "V8260J40" ++
        " not found in order items.") :=
  c8_sku_case_insensitive.2.1 "V8260J40"
    [{ blankItem with sku_number := "OTHER1" }] (by decide)


theorem colWidths_eq_map (rows : List Row) :
    colWidths rows = (headersOf rows).map (fun h =>
      (rows.map fun row => visibleWidthS (lookupCell row h)).foldl max
        (visibleWidthS h)) := rfl

theorem dash_width (n : Nat) :
    visibleWidthS (String.mk (List.replicate n '─')) = n := by
  show visibleWidth (List.replicate n '─') = n
  rw [visibleWidth_noEsc _ (fun c hc => by
    rw [List.eq_of_mem_replicate hc]; decide), strWidth_replicate,
    show charWidth '─' = 1 from by decide, Nat.mul_one]

theorem sum_map_add_two (l : List Nat) :
    (l.map (fun w => w + 2)).sum = l.sum + 2 * l.length := by
  induction l with
  | nil => simp
  | cons x t ih =>
    simp only [List.map_cons, List.sum_cons, List.length_cons, ih]
    omega

theorem buildBorder_width (rows : List Row) (l m r : String)
    (hlesc : noEsc l.data) (hlw : strWidth l.data = 1)
    (hmne : m.data ≠ []) (hmsafe : headSafe m.data) (hmesc : noEsc m.data)
    (hmw : strWidth m.data = 1)
    (hrsafe : headSafe r.data) (hresc : noEsc r.data)
    (hrw : strWidth r.data = 1)
    (hcols : headersOf rows ≠ []) :
    visibleWidthS (buildBorder rows l m r) = tableWidth rows := by
  unfold buildBorder
  show visibleWidth _ = _
  rw [String.data_append, String.data_append]
  rw [visibleWidth_append_safe _ _ hrsafe,
    visibleWidth_append_noEsc _ _ hlesc,
    visibleWidth_noEsc _ hresc, hrw, hlw]
  have hJ : visibleWidth (joinSep m ((colWidths rows).map fun w =>
      String.mk (List.replicate (w + 2) '─'))).data =
      (colWidths rows).sum + 2 * (colWidths rows).length +
        ((colWidths rows).length - 1) := by
    show visibleWidthS _ = _
    rw [visibleWidthS_joinSep m hmne hmsafe hmesc, List.map_map]
    have hmap : ((colWidths rows).map
        (visibleWidthS ∘ fun w => String.mk (List.replicate (w + 2) '─'))) =
        (colWidths rows).map (fun w => w + 2) :=
      List.map_congr_left (fun w _ => dash_width (w + 2))
    rw [hmap, sum_map_add_two, List.length_map, hmw, Nat.one_mul]
  rw [hJ]
  have hk : (colWidths rows).length ≠ 0 := by
    rw [colWidths_eq_map, List.length_map]
    intro hzero
    exact hcols (List.eq_nil_of_length_eq_zero hzero)
  unfold tableWidth
  omega

theorem padded_cells_widths (hs : List String) (g : String → Nat)
    (f : String → String) (hf : ∀ h ∈ hs, visibleWidthS (f h) ≤ g h) :
    (List.zipWith (fun h w => padCell (f h) w) hs (hs.map g)).map
      visibleWidthS = hs.map g := by
  rw [List.zipWith_map_right, List.zipWith_same, List.map_map]
  apply List.map_congr_left
  intro h hmem
  exact visibleWidthS_padCell _ _ (hf h hmem)

theorem content_line_width (rows : List Row) (f : String → String)
    (hf : ∀ h ∈ headersOf rows, visibleWidthS (f h) ≤
      (rows.map fun row => visibleWidthS (lookupCell row h)).foldl max
        (visibleWidthS h))
    (hcols : headersOf rows ≠ []) :
    visibleWidthS ("│ " ++ joinSep " │ "
      (List.zipWith (fun h w => padCell (f h) w) (headersOf rows)
        (colWidths rows)) ++ " │") = tableWidth rows := by
  show visibleWidth _ = _
  rw [String.data_append, String.data_append]
  rw [visibleWidth_append_safe _ _ (by decide : headSafe " │".data),
    visibleWidth_append_noEsc _ _ (by decide : noEsc "│ ".data),
    show visibleWidth " │".data = 2 from by decide,
    show strWidth "│ ".data = 2 from by decide]
  have hcells : (List.zipWith (fun h w => padCell (f h) w) (headersOf rows)
      (colWidths rows)).map visibleWidthS =
      (headersOf rows).map (fun h =>
        (rows.map fun row => visibleWidthS (lookupCell row h)).foldl max
          (visibleWidthS h)) := by
    rw [colWidths_eq_map]
    exact padded_cells_widths (headersOf rows) _ f hf
  have hJ : visibleWidth (joinSep " │ "
      (List.zipWith (fun h w => padCell (f h) w) (headersOf rows)
        (colWidths rows))).data =
      (colWidths rows).sum + 3 * ((colWidths rows).length - 1) := by
    show visibleWidthS _ = _
    rw [visibleWidthS_joinSep " │ " (by decide) (by decide) (by decide),
      hcells]
    rw [show strWidth " │ ".data = 3 from by decide]
    have hlen : (List.zipWith (fun h w => padCell (f h) w) (headersOf rows)
        (colWidths rows)).length = (colWidths rows).length := by
      rw [List.length_zipWith, colWidths_eq_map, List.length_map]
      exact Nat.min_self _
    rw [hlen, colWidths_eq_map]
  rw [hJ]
  have hk : (colWidths rows).length ≠ 0 := by
    rw [colWidths_eq_map, List.length_map]
    intro hzero
    exact hcols (List.eq_nil_of_length_eq_zero hzero)
  unfold tableWidth
  omega

/-- C3 counterexample: for the non-empty row list made of one empty
record the rendered lines do not all have the same visible width, since
zero columns give borders of width two but content lines of width four. -/
theorem c3_counterexample :
    ¬(∀ l1 ∈ renderTable [([] : Row)], ∀ l2 ∈ renderTable [([] : Row)],
      visibleWidthS l1 = visibleWidthS l2) := by
  decide

/-- C3 amended: for every non-empty row list whose first row has at least
one column, every line of the rendered table has the same total visible
width after stripping the color sequences, and each column width is the
maximum of the header display width and the cell display widths of the
column. -/
theorem c3_table_alignment (rows : List Row) (_hrows : rows ≠ [])
    (hcols : headersOf rows ≠ []) :
    (∀ line ∈ renderTable rows, visibleWidthS line = tableWidth rows) ∧
    colWidths rows = (headersOf rows).map (fun h =>
      max (visibleWidthS h)
        ((rows.map fun row => visibleWidthS (lookupCell row h)).foldr
          max 0)) := by
  constructor
  · intro line hline
    simp only [renderTable, List.mem_append, List.mem_cons, List.mem_map,
      List.mem_singleton, List.not_mem_nil, or_false] at hline
    rcases hline with ((h | h | h) | ⟨row, hrow, hrowline⟩) | h
    · subst h
      exact buildBorder_width rows "┌" "┬" "┐" (by decide) (by decide)
        (by decide) (by decide) (by decide) (by decide) (by decide)
        (by decide) (by decide) hcols
    · subst h
      exact content_line_width rows (fun h => h)
        (fun h _ => le_foldl_max _ _) hcols
    · subst h
      exact buildBorder_width rows "├" "┼" "┤" (by decide) (by decide)
        (by decide) (by decide) (by decide) (by decide) (by decide)
        (by decide) (by decide) hcols
    · subst hrowline
      exact content_line_width rows (fun h => lookupCell row h)
        (fun h _ => mem_le_foldl_max _ _ _
          (List.mem_map_of_mem _ hrow)) hcols
    · subst h
      exact buildBorder_width rows "└" "┴" "┘" (by decide) (by decide)
        (by decide) (by decide) (by decide) (by decide) (by decide)
        (by decide) (by decide) hcols
  · rw [colWidths_eq_map]
    apply List.map_congr_left
    intro h hmem
    rw [foldl_max_eq_max_foldr]

theorem c3_table_alignment_witness :
    visibleWidthS "│ A  │" = tableWidth [[("A", "xy")]] ∧
    tableWidth [[("A", "xy")]] = 6 :=
  ⟨(c3_table_alignment [[("A", "xy")]] (by decide) (by decide)).1
    "│ A  │" (by decide), by decide⟩

end Eufy
